import Mathlib

/-!
Verification development for the libjoystick device-classification and
event-normalization core.

The repository ships the public header (`libjoystick.h`, with the full API
doc comments), the build description naming `src/libjoystick.c`, and two
example programs; the implementation file itself is not part of the tree
we were given.  Every definition below is therefore modelled from the
design document (spec.md) and the header's doc comments, as indicated by
the `Modelled from the spec:` doc comments.
-/

/-- Modelled from the spec: the six device types of `enum js_device_type`
(spec section 3, "type bitmask (joystick/gamepad/wheel/throttle/pedals/remote —
not mutually exclusive)"); `src/libjoystick.c` is missing. -/
inductive js_device_type where
  | joystick
  | gamepad
  | wheel
  | throttle
  | pedals
  | remote
deriving DecidableEq

/-- Modelled from the spec: bit position of each device type in the device
type bitmask. -/
def typeBit : js_device_type → Nat
  | .joystick => 0
  | .gamepad => 1
  | .wheel => 2
  | .throttle => 3
  | .pedals => 4
  | .remote => 5

/-- Modelled from the spec: the type bitmask built from one flag per device
type, "multiple type bits may be set" (spec section 3). -/
def typeMask6 (j g w t p r : Bool) : Nat :=
  (cond j 1 0) ||| (cond g 2 0) ||| (cond w 4 0) |||
  (cond t 8 0) ||| (cond p 16 0) ||| (cond r 32 0)

/-- Modelled from the spec: capability descriptor of one button
("capability bitmask (hand assignment, trigger/shoulder/analog/...)",
spec section 3); only the fields the event translator consumes are kept:
the transport-provided physical range and the analog distinction. -/
structure ButtonModel where
  minv : Int
  maxv : Int
  analog : Bool
deriving DecidableEq, Inhabited

/-- Modelled from the spec: capability descriptor of one axis with its
transport-provided physical range (spec section 4.2, rule 1). -/
structure AxisModel where
  minv : Int
  maxv : Int
deriving DecidableEq, Inhabited

/-- Modelled from the spec: capability descriptor of one d-pad
(spec section 3). -/
structure DpadModel where
  eight : Bool
deriving DecidableEq, Inhabited

/-- Modelled from the spec: the Capability Model of a classified device
(spec section 3, "Device"): name, type bitmask, ordered button, axis and
d-pad inventories. -/
structure DeviceModel where
  name : String
  types : Nat
  buttons : List ButtonModel
  axes : List AxisModel
  dpads : List DpadModel
deriving DecidableEq

/-- Modelled from the spec: `js_device_has_type` checks one type bit of the
device's type bitmask (header doc: "a device may have more than one device
type set"). -/
def js_device_has_type (dev : DeviceModel) (t : js_device_type) : Bool :=
  dev.types.testBit (typeBit t)

/-- Modelled from the spec: a device built around a given type bitmask,
used to state properties of the bitmask encoding itself. -/
def mkDev (mask : Nat) : DeviceModel :=
  { name := "", types := mask, buttons := [], axes := [], dpads := [] }

/-- Modelled from the spec: the normalized state of one axis, up to three
dimensions x, y, z (spec section 3, "Axis"). -/
structure AxisState where
  x : Int
  y : Int
  z : Int
deriving DecidableEq, Inhabited

/-- Modelled from the spec: one raw report's update of an axis; a dimension
absent from the report cycle is `none` (spec section 4.2, "unset dimensions
reported as their last known value"). -/
structure AxisUpdate where
  x : Option Int
  y : Option Int
  z : Option Int
deriving DecidableEq, Inhabited

/-- Modelled from the spec: event payloads of `enum js_event_type`
(device added/removed/changed, sync, axis, button value and logical state,
accelerometer, dpad). -/
inductive EvPayload where
  | deviceAdded
  | deviceRemoved
  | deviceChanged
  | sync
  | axisChange (idx : Nat) (value : AxisState)
  | buttonValue (idx : Nat) (value : Int)
  | buttonState (idx : Nat) (state : Bool)
  | accelChange (idx : Nat) (value : AxisState)
  | dpadChange (idx : Nat) (state : Nat)
deriving DecidableEq

/-- Modelled from the spec: `struct js_event` carries the associated device
(identified here by its stable id) and its payload. -/
structure js_event where
  device : Nat
  payload : EvPayload
deriving DecidableEq

/-- Modelled from the spec: a button handle, tied to the device it belongs
to ("comparison is defined only between buttons of the same device"). -/
structure ButtonRef where
  device : Nat
  idx : Nat
deriving DecidableEq

/-- Modelled from the spec: an axis handle, tied to its device. -/
structure AxisRef where
  device : Nat
  idx : Nat
deriving DecidableEq

def isAddEv (e : js_event) : Bool :=
  match e.payload with
  | .deviceAdded => true
  | _ => false

def isRemEv (e : js_event) : Bool :=
  match e.payload with
  | .deviceRemoved => true
  | _ => false

/-- Modelled from the spec: a control-state-change event in the sense of the
lifecycle invariant of spec section 3 — button, axis, accelerometer, dpad or
sync. -/
def isStateEv (e : js_event) : Bool :=
  match e.payload with
  | .sync => true
  | .axisChange _ _ => true
  | .buttonValue _ _ => true
  | .buttonState _ _ => true
  | .accelChange _ _ => true
  | .dpadChange _ _ => true
  | _ => false

def isSyncEv (e : js_event) : Bool :=
  match e.payload with
  | .sync => true
  | _ => false

def isAxisEv (e : js_event) : Bool :=
  match e.payload with
  | .axisChange _ _ => true
  | _ => false

def isButtonEv (e : js_event) : Bool :=
  match e.payload with
  | .buttonValue _ _ => true
  | .buttonState _ _ => true
  | _ => false

def isDpadEv (e : js_event) : Bool :=
  match e.payload with
  | .dpadChange _ _ => true
  | _ => false

def isAxisEvFor (i : Nat) (e : js_event) : Bool :=
  match e.payload with
  | .axisChange j _ => j == i
  | _ => false

def isButtonValueEvFor (i : Nat) (e : js_event) : Bool :=
  match e.payload with
  | .buttonValue j _ => j == i
  | _ => false

def isButtonStateEvFor (i : Nat) (e : js_event) : Bool :=
  match e.payload with
  | .buttonState j _ => j == i
  | _ => false

def isDpadEvFor (i : Nat) (e : js_event) : Bool :=
  match e.payload with
  | .dpadChange j _ => j == i
  | _ => false

/-! ## Normalization (spec section 4.2, rule 1) -/

/-- Modelled from the spec: clamping of a raw value into the declared
physical range, "out-of-range raw values are clamped, not rejected"
(spec sections 4.2 and 7). -/
def clampInt (lo hi v : Int) : Int :=
  max lo (min v hi)

/-- Modelled from the spec: mapping of a raw control value to the 16-bit
unsigned normalized button range `0 .. 0xffff` using the transport-provided
physical minimum and maximum (header doc of `js_event_button_get_value`). -/
def js_normalize_button (minv maxv raw : Int) : Int :=
  (clampInt minv maxv raw - minv) * 65535 / (maxv - minv)

/-- Modelled from the spec: mapping of a raw control value to the signed
16-bit normalized axis range (header doc of `js_event_axis_get_value`). -/
def js_normalize_axis (minv maxv raw : Int) : Int :=
  js_normalize_button minv maxv raw - 32768

/-! ## Analog-button threshold (spec section 4.2, rule 3) -/

/-- Modelled from the spec: the press threshold of the symmetric hysteresis
band around the midpoint of the normalized button range. -/
def buttonDownThreshold : Int := 43690

/-- Modelled from the spec: the release threshold of the symmetric
hysteresis band around the midpoint of the normalized button range. -/
def buttonUpThreshold : Int := 21845

/-- Modelled from the spec: the deterministic down/up decision for a button
value, "symmetric hysteresis around the midpoint" (spec section 4.2): the
state becomes down at or above the press threshold, up at or below the
release threshold, and is kept unchanged inside the band. -/
def buttonLogic (last : Bool) (v : Int) : Bool :=
  if buttonDownThreshold ≤ v then true
  else if v ≤ buttonUpThreshold then false
  else last

/-- Modelled from the spec: the sequence of logical button-state-change
outputs produced by feeding a raw (already normalized) value sequence
through the threshold decision from a given logical state. -/
def runButtonSeq (s : Bool) : List Int → List Bool
  | [] => []
  | v :: vs =>
    if buttonLogic s v = s then runButtonSeq s vs
    else buttonLogic s v :: runButtonSeq (buttonLogic s v) vs

/-- Modelled from the spec: the translator's per-step behaviour on one
button as a relation — from logical state `s`, input `v` either leaves the
state unchanged and emits nothing, or moves to the new state and emits it.
Used to state that the threshold decision is deterministic. -/
inductive ButtonRun : Bool → List Int → List Bool → Prop where
  | nil (s : Bool) : ButtonRun s [] []
  | same (s : Bool) (v : Int) (vs : List Int) (out : List Bool) :
      buttonLogic s v = s → ButtonRun s vs out → ButtonRun s (v :: vs) out
  | change (s : Bool) (v : Int) (vs : List Int) (out : List Bool) :
      buttonLogic s v ≠ s → ButtonRun (buttonLogic s v) vs out →
      ButtonRun s (v :: vs) (buttonLogic s v :: out)

/-! ## Event Translator (spec section 4.2) -/

/-- Modelled from the spec: the Event Translator's per-device state — last
normalized value for every axis dimension, last normalized value and last
logical state for every button, last direction bitmask for every d-pad
(spec section 4.2). -/
structure TranslatorState where
  axisVals : List AxisState
  buttonVals : List Int
  buttonStates : List Bool
  dpadVals : List Nat
deriving DecidableEq

/-- Modelled from the spec: one batch of raw reports belonging to a single
hardware report cycle, as handed over by the raw-report transport
(spec section 4.2): raw values keyed by control index. -/
structure RawBatch where
  buttonReports : List (Nat × Int)
  axisReports : List (Nat × AxisUpdate)
  dpadReports : List (Nat × Nat)
deriving DecidableEq

/-- Modelled from the spec: later raw reports of the same axis in one cycle
override earlier ones dimension-wise. -/
def overrideAxisUpdate (a b : AxisUpdate) : AxisUpdate :=
  { x := match b.x with | some v => some v | none => a.x
  , y := match b.y with | some v => some v | none => a.y
  , z := match b.z with | some v => some v | none => a.z }

/-- Modelled from the spec: the merged update of axis `i` over one report
cycle. -/
def mergedAxisUpdate (l : List (Nat × AxisUpdate)) (i : Nat) : AxisUpdate :=
  l.foldl (fun acc p => if p.1 = i then overrideAxisUpdate acc p.2 else acc)
    ⟨none, none, none⟩

/-- Modelled from the spec: the merged raw value of button `i` over one
report cycle (latest report wins). -/
def mergedButtonUpdate (l : List (Nat × Int)) (i : Nat) : Option Int :=
  l.foldl (fun acc p => if p.1 = i then some p.2 else acc) none

/-- Modelled from the spec: the merged raw direction bitmask of d-pad `i`
over one report cycle (latest report wins). -/
def mergedDpadUpdate (l : List (Nat × Nat)) (i : Nat) : Option Nat :=
  l.foldl (fun acc p => if p.1 = i then some p.2 else acc) none

/-- Modelled from the spec: applying an axis update to the last known state;
dimensions unset in the cycle keep their last known value
(spec section 4.2, rule 2). -/
def applyAxisUpdate (last : AxisState) (u : AxisUpdate) : AxisState :=
  { x := u.x.getD last.x, y := u.y.getD last.y, z := u.z.getD last.z }

/-- Modelled from the spec: dimension-wise normalization of a raw axis
update through the axis's physical range. -/
def normAxisUpdate (am : AxisModel) (u : AxisUpdate) : AxisUpdate :=
  { x := u.x.map (js_normalize_axis am.minv am.maxv)
  , y := u.y.map (js_normalize_axis am.minv am.maxv)
  , z := u.z.map (js_normalize_axis am.minv am.maxv) }

def axisLastOf (st : TranslatorState) (i : Nat) : AxisState :=
  st.axisVals.getD i ⟨0, 0, 0⟩

/-- Modelled from the spec: the normalized state of axis `i` after one
report cycle — updated dimensions normalized from the raw report, unset
dimensions kept at their last known value. -/
def axisNewOf (m : DeviceModel) (st : TranslatorState) (b : RawBatch) (i : Nat) :
    AxisState :=
  applyAxisUpdate (axisLastOf st i)
    (normAxisUpdate (m.axes.getD i default) (mergedAxisUpdate b.axisReports i))

def buttonLastValOf (st : TranslatorState) (i : Nat) : Int :=
  st.buttonVals.getD i 0

def buttonLastStateOf (st : TranslatorState) (i : Nat) : Bool :=
  st.buttonStates.getD i false

/-- Modelled from the spec: the normalized value of button `i` after one
report cycle. -/
def buttonNewValOf (m : DeviceModel) (st : TranslatorState) (b : RawBatch) (i : Nat) :
    Int :=
  match mergedButtonUpdate b.buttonReports i with
  | none => buttonLastValOf st i
  | some raw =>
    js_normalize_button (m.buttons.getD i default).minv (m.buttons.getD i default).maxv raw

/-- Modelled from the spec: the logical state of button `i` after one report
cycle, through the deterministic threshold decision. -/
def buttonNewStateOf (m : DeviceModel) (st : TranslatorState) (b : RawBatch) (i : Nat) :
    Bool :=
  match mergedButtonUpdate b.buttonReports i with
  | none => buttonLastStateOf st i
  | some raw =>
    buttonLogic (buttonLastStateOf st i)
      (js_normalize_button (m.buttons.getD i default).minv (m.buttons.getD i default).maxv raw)

/-- Modelled from the spec: the mask of the eight defined dpad direction
bits (`enum js_dpad_direction`, bits 1 to 8); "unknown/reserved bits are
never set by the translator" (spec section 4.2, rule 4). -/
def dpadKnownMask : Nat := 510

def dpadLastOf (st : TranslatorState) (i : Nat) : Nat :=
  st.dpadVals.getD i 0

/-- Modelled from the spec: the direction bitmask of d-pad `i` after one
report cycle, masked to the defined direction bits. -/
def dpadNewOf (st : TranslatorState) (b : RawBatch) (i : Nat) : Nat :=
  match mergedDpadUpdate b.dpadReports i with
  | none => dpadLastOf st i
  | some raw => raw &&& dpadKnownMask

/-- Modelled from the spec: the change events emitted for axis `i` in one
report cycle — one axis-changed event carrying the full (x, y, z) triple
when at least one dimension changed, nothing otherwise
(spec section 4.2, rule 2). -/
def axisEventAt (m : DeviceModel) (did : Nat) (st : TranslatorState) (b : RawBatch)
    (i : Nat) : List js_event :=
  if axisNewOf m st b i ≠ axisLastOf st i then
    [⟨did, .axisChange i (axisNewOf m st b i)⟩]
  else []

/-- Modelled from the spec: the change events emitted for button `i` in one
report cycle — for analog buttons a button-value-changed event on any value
change, and a button-state-changed event when the logical value crosses the
threshold (spec section 4.2, rule 3; value before state per the scenario of
spec section 8). -/
def buttonEventAt (m : DeviceModel) (did : Nat) (st : TranslatorState) (b : RawBatch)
    (i : Nat) : List js_event :=
  match mergedButtonUpdate b.buttonReports i with
  | none => []
  | some _ =>
    (if (m.buttons.getD i default).analog = true ∧
        buttonNewValOf m st b i ≠ buttonLastValOf st i then
      [⟨did, .buttonValue i (buttonNewValOf m st b i)⟩]
    else []) ++
    (if buttonNewStateOf m st b i ≠ buttonLastStateOf st i then
      [⟨did, .buttonState i (buttonNewStateOf m st b i)⟩]
    else [])

/-- Modelled from the spec: the change events emitted for d-pad `i` in one
report cycle — one d-pad-changed event when the direction bitmask changed
(spec section 4.2, rule 4). -/
def dpadEventAt (did : Nat) (st : TranslatorState) (b : RawBatch) (i : Nat) :
    List js_event :=
  if dpadNewOf st b i ≠ dpadLastOf st i then
    [⟨did, .dpadChange i (dpadNewOf st b i)⟩]
  else []

def buttonEvents (m : DeviceModel) (did : Nat) (st : TranslatorState) (b : RawBatch) :
    List js_event :=
  (List.range m.buttons.length).flatMap (buttonEventAt m did st b)

def axisEvents (m : DeviceModel) (did : Nat) (st : TranslatorState) (b : RawBatch) :
    List js_event :=
  (List.range m.axes.length).flatMap (axisEventAt m did st b)

def dpadEvents (m : DeviceModel) (did : Nat) (st : TranslatorState) (b : RawBatch) :
    List js_event :=
  (List.range m.dpads.length).flatMap (dpadEventAt did st b)

/-- Modelled from the spec: the translator state after one report cycle. -/
def stepTState (m : DeviceModel) (st : TranslatorState) (b : RawBatch) :
    TranslatorState :=
  { axisVals := (List.range m.axes.length).map (axisNewOf m st b)
  , buttonVals := (List.range m.buttons.length).map (buttonNewValOf m st b)
  , buttonStates := (List.range m.buttons.length).map (buttonNewStateOf m st b)
  , dpadVals := (List.range m.dpads.length).map (dpadNewOf st b) }

/-- Modelled from the spec: the Event Translator's contract for one batch of
raw reports — an ordered sequence of change events, buttons then axes then
d-pads, followed by exactly one sync event (spec section 4.2); the
implementation `src/libjoystick.c` is missing from the tree. -/
def translateBatch (m : DeviceModel) (did : Nat) (st : TranslatorState) (b : RawBatch) :
    TranslatorState × List js_event :=
  (stepTState m st b,
   buttonEvents m did st b ++ axisEvents m did st b ++ dpadEvents m did st b ++
     [⟨did, .sync⟩])

/-! ## Classifier (spec section 4.1) -/

/-- Modelled from the spec: the transport-reported description of one raw
button (its value range; "digital unless the raw control reports a
multi-valued range", spec section 4.1 step 3). -/
structure RawButtonDesc where
  minv : Int
  maxv : Int
deriving DecidableEq, Inhabited

/-- Modelled from the spec: the raw hardware descriptor handed to the
Classifier — identifying numbers plus the transport-reported inventory of
raw controls (spec section 4.1). -/
structure RawDescriptor where
  node : Nat
  name : String
  vendor : Nat
  product : Nat
  rawButtons : List RawButtonDesc
  rawAxes : List AxisModel
  rawDpads : Nat
deriving DecidableEq

/-- Modelled from the spec: the initial type-bitmask guess derived from the
raw control inventory shape (spec section 4.1 step 1); heuristic, may set
multiple type bits. -/
def guessTypes (d : RawDescriptor) : Nat :=
  (if 4 ≤ d.rawButtons.length ∧ d.rawButtons.length ≤ 16 ∧ 2 ≤ d.rawAxes.length
   then 2 ^ typeBit .gamepad else 0) |||
  (if d.rawAxes.length = 1 ∧ d.rawButtons.length ≤ 3
   then 2 ^ typeBit .wheel else 0) |||
  (if 1 ≤ d.rawAxes.length ∧ 1 ≤ d.rawButtons.length
   then 2 ^ typeBit .joystick else 0)

/-- Modelled from the spec: the bitmask denoted by a list of device types. -/
def maskOfList (l : List js_device_type) : Nat :=
  l.foldr (fun t acc => 2 ^ typeBit t ||| acc) 0

/-- Modelled from the spec: one entry of the static quirks table — keyed by
identifying numbers, it may override or extend the type bitmask and mark raw
buttons as excluded (spec section 4.1 step 2). -/
structure QuirkEntry where
  vendor : Nat
  product : Nat
  typeOverride : Option (List js_device_type)
  typeExtend : List js_device_type
  excludedButtons : List Nat
deriving DecidableEq

/-- Modelled from the spec: the static, versioned quirks lookup table
(spec section 6); an external data collaborator, represented by a small
fixed table. -/
def quirksTable : List QuirkEntry :=
  [ ⟨1406, 774, some [.remote], [], []⟩
  , ⟨1133, 49743, some [.wheel, .pedals], [], [2]⟩
  , ⟨1118, 736, none, [.gamepad], []⟩ ]

def findQuirk (v p : Nat) : Option QuirkEntry :=
  quirksTable.find? (fun q => q.vendor == v && q.product == p)

def excludedOf (q : Option QuirkEntry) : List Nat :=
  match q with
  | none => []
  | some e => e.excludedButtons

/-- Modelled from the spec: the device type bitmask after the quirks pass —
an override replaces the heuristic guess, an extension is merged into it
(spec section 4.1 step 2). -/
def classifiedTypes (d : RawDescriptor) : Nat :=
  match findQuirk d.vendor d.product with
  | none => guessTypes d
  | some q =>
    (match q.typeOverride with
     | some l => maskOfList l
     | none => guessTypes d) ||| maskOfList q.typeExtend

/-- Modelled from the spec: the raw buttons surviving the quirks exclusion
pass, in order (spec section 4.1 steps 2 and 3). -/
def survivingButtons (d : RawDescriptor) (excluded : List Nat) : List RawButtonDesc :=
  (d.rawButtons.enum.filter (fun p => !(excluded.contains p.1))).map Prod.snd

/-- Modelled from the spec: construction of a Button from a surviving raw
control — analog exactly when the raw control reports a multi-valued range
(spec section 4.1 step 3). -/
def buildButton (rb : RawButtonDesc) : ButtonModel :=
  { minv := rb.minv, maxv := rb.maxv, analog := 1 < rb.maxv - rb.minv }

/-- Modelled from the spec: the Classifier — produce a complete Capability
Model from a raw hardware descriptor, or reject the device outright when no
type can be assigned; classification never partially succeeds
(spec section 4.1); `src/libjoystick.c` is missing from the tree. -/
def js_classify (d : RawDescriptor) : Option DeviceModel :=
  if classifiedTypes d = 0 then none
  else some
    { name := d.name
    , types := classifiedTypes d
    , buttons := (survivingButtons d (excludedOf (findQuirk d.vendor d.product))).map buildButton
    , axes := d.rawAxes
    , dpads := (List.range d.rawDpads).map (fun _ => ⟨false⟩) }

/-! ## Context / Queue (spec section 4.3) -/

/-- Modelled from the spec: a notice delivered by the hotplug source — a
device-present/added notice carrying the raw descriptor, or a removal notice
for a device node (spec section 6). -/
inductive HotplugNotice where
  | add (desc : RawDescriptor)
  | remove (node : Nat)
deriving DecidableEq

/-- Modelled from the spec: one live device of the Context's registry — its
stable id, originating node, Capability Model and private translator state
(spec sections 4.3 and 5). -/
structure LiveDevice where
  id : Nat
  node : Nat
  model : DeviceModel
  tstate : TranslatorState
deriving DecidableEq

/-- Modelled from the spec: `struct js_ctx` — the registry of live devices,
the single FIFO event queue, and the pending data of the owned sources;
`history` records every event ever enqueued, in order, to state ordering
and lifecycle properties; `src/libjoystick.c` is missing from the tree. -/
structure js_ctx where
  nextId : Nat
  registry : List LiveDevice
  queue : List js_event
  history : List js_event
  pendingHotplug : List HotplugNotice
  pendingReports : List (Nat × RawBatch)
deriving DecidableEq

/-- Modelled from the spec: appending one event to the single FIFO queue. -/
def enqueue (c : js_ctx) (e : js_event) : js_ctx :=
  { c with queue := c.queue ++ [e], history := c.history ++ [e] }

/-- Modelled from the spec: appending a block of events to the single FIFO
queue in order. -/
def enqueueAll (c : js_ctx) (es : List js_event) : js_ctx :=
  { c with queue := c.queue ++ es, history := c.history ++ es }

/-- Modelled from the spec: the Event Translator's fresh per-device state —
every last known value starts at the neutral position (spec section 4.2). -/
def freshTState (m : DeviceModel) : TranslatorState :=
  ⟨List.replicate m.axes.length ⟨0, 0, 0⟩,
   List.replicate m.buttons.length 0,
   List.replicate m.buttons.length false,
   List.replicate m.dpads.length 0⟩

/-- Modelled from the spec: handling of one hotplug notice (spec
section 4.3): an added node is classified — on rejection no device is
created and no event is enqueued; on success the device joins the registry
and exactly one device-added event is enqueued.  A removal notice of a live
node removes the device from the registry and enqueues exactly one
device-removed event. -/
def handleHotplug (c : js_ctx) (n : HotplugNotice) : js_ctx :=
  match n with
  | .add desc =>
    match js_classify desc with
    | none => c
    | some m =>
      enqueue
        { c with
          nextId := c.nextId + 1,
          registry := c.registry ++ [⟨c.nextId, desc.node, m, freshTState m⟩] }
        ⟨c.nextId, .deviceAdded⟩
  | .remove node =>
    match c.registry.find? (fun le => le.node == node) with
    | none => c
    | some le =>
      enqueue { c with registry := c.registry.filter (fun x => x.id != le.id) }
        ⟨le.id, .deviceRemoved⟩

/-- Modelled from the spec: handling of one raw-report batch (spec
section 4.3): reports of a device no longer in the registry are dropped
("no more events from this device will be queued"); for a live device the
batch goes through the Event Translator and the resulting block of events is
appended to the queue. -/
def handleReport (c : js_ctx) (r : Nat × RawBatch) : js_ctx :=
  match c.registry.find? (fun le => le.id == r.1) with
  | none => c
  | some le =>
    let reg := c.registry.map fun x =>
      if x.id = le.id then
        { x with tstate := (translateBatch le.model le.id le.tstate r.2).1 }
      else x
    enqueueAll { c with registry := reg }
      (translateBatch le.model le.id le.tstate r.2).2

/-- Modelled from the spec: `js_ctx_dispatch` — drain all currently pending
readiness from every owned source, hotplug notices through device
add/remove handling and raw reports through the Event Translator, appending
resulting events to the single FIFO queue; it performs no blocking
I/O and returns once no more data is immediately available
(spec section 4.3); `src/libjoystick.c` is missing from the tree. -/
def js_ctx_dispatch (c : js_ctx) : js_ctx :=
  (c.pendingReports).foldl handleReport
    ((c.pendingHotplug).foldl handleHotplug
      { c with pendingHotplug := [], pendingReports := [] })

/-- Modelled from the spec: `js_ctx_get_event` — pop and return the oldest
queued event, or the NULL sentinel when no event is pending; it never itself
triggers I/O (spec section 4.3); `src/libjoystick.c` is missing from the
tree. -/
def js_ctx_get_event (c : js_ctx) : Option js_event × js_ctx :=
  match c.queue with
  | [] => (none, c)
  | e :: rest => (some e, { c with queue := rest })

def popCtx (c : js_ctx) : js_ctx :=
  (js_ctx_get_event c).2

/-- Modelled from the spec: the event returned by the `n`-th successive call
of `js_ctx_get_event` on a context. -/
def nthReturned (c : js_ctx) (n : Nat) : Option js_event :=
  (js_ctx_get_event (popCtx^[n] c)).1

/-- Modelled from the spec: the freshly created, inactive context
(spec section 4.3). -/
def initCtx : js_ctx :=
  { nextId := 0, registry := [], queue := [], history := []
  , pendingHotplug := [], pendingReports := [] }

/-- Modelled from the spec: one observable step of a context's life — data
arriving from the hotplug source or a raw-report reader, a dispatch call, or
a get-event call (spec sections 4.3 and 5). -/
inductive Step : js_ctx → js_ctx → Prop where
  | notice (c : js_ctx) (n : HotplugNotice) :
      Step c { c with pendingHotplug := c.pendingHotplug ++ [n] }
  | report (c : js_ctx) (r : Nat × RawBatch) :
      Step c { c with pendingReports := c.pendingReports ++ [r] }
  | dispatch (c : js_ctx) : Step c (js_ctx_dispatch c)
  | getEvent (c : js_ctx) : Step c (js_ctx_get_event c).2

/-- Modelled from the spec: the contexts reachable from a freshly created
context. -/
def Reachable (c : js_ctx) : Prop :=
  Relation.ReflTransGen Step initCtx c

/-- Modelled from the spec: the device-local view of the event history —
the subsequence of events referencing device `d` (spec section 3,
"in device-local order"). -/
def deviceTrace (h : List js_event) (d : Nat) : List js_event :=
  h.filter (fun e => e.device == d)

/-- Modelled from the spec: the admissible middle of a device-local event
sequence — state-change/sync events, optionally terminated by exactly one
device-removed event (spec section 3, lifecycle invariant). -/
def midOk : List js_event → Prop
  | [] => True
  | e :: rest => (isStateEv e = true ∧ midOk rest) ∨ (isRemEv e = true ∧ rest = [])

/-- Modelled from the spec: the lifecycle invariant on one device-local
event sequence — empty, or a device-added event followed by
state-change/sync events, optionally terminated by a device-removed event
(spec section 3). -/
def traceOk : List js_event → Prop
  | [] => True
  | e :: rest => isAddEv e = true ∧ midOk rest

/-! ## Per-control event queries (header doc comments) -/

/-- Modelled from the spec: `js_event_axis_has_changed` — always false if
the axis does not exist on the event's device (header doc). -/
def js_event_axis_has_changed (e : js_event) (a : AxisRef) : Bool :=
  match e.payload with
  | .axisChange i _ => a.device == e.device && a.idx == i
  | _ => false

/-- Modelled from the spec: `js_event_axis_get_value` — the changed flag
plus the full normalized (x, y, z) triple; if the axis does not exist on the
event's device, all values are set to 0 (header doc). -/
def js_event_axis_get_value (e : js_event) (a : AxisRef) :
    Bool × Int × Int × Int :=
  match e.payload with
  | .axisChange i v =>
    if a.device == e.device && a.idx == i then (true, v.x, v.y, v.z)
    else (false, 0, 0, 0)
  | _ => (false, 0, 0, 0)

/-- Modelled from the spec: `js_event_button_value_has_changed` — always
false if the button does not exist on the event's device (header doc). -/
def js_event_button_value_has_changed (e : js_event) (b : ButtonRef) : Bool :=
  match e.payload with
  | .buttonValue i _ => b.device == e.device && b.idx == i
  | _ => false

/-- Modelled from the spec: `js_event_button_get_value` — the changed flag
plus the normalized value; if the button does not exist on the event's
device, the value returned is 0 (header doc). -/
def js_event_button_get_value (e : js_event) (b : ButtonRef) : Bool × Int :=
  match e.payload with
  | .buttonValue i v =>
    if b.device == e.device && b.idx == i then (true, v) else (false, 0)
  | _ => (false, 0)

/-- Modelled from the spec: `js_event_button_get_state` — the changed flag
plus the logical state decided by the implementation-defined threshold
(header doc). -/
def js_event_button_get_state (e : js_event) (b : ButtonRef) : Bool × Bool :=
  match e.payload with
  | .buttonState i s =>
    if b.device == e.device && b.idx == i then (true, s) else (false, false)
  | _ => (false, false)

/-- Modelled from the spec: the inductive invariant carried by every
reachable context — device ids in the history and registry are below the id
counter, every registered device has a non-empty device-local trace with no
device-removed event, and every device-local trace satisfies the lifecycle
shape of spec section 3. -/
structure CtxInv (c : js_ctx) : Prop where
  fresh : ∀ e ∈ c.history, e.device < c.nextId
  regLt : ∀ le ∈ c.registry, le.id < c.nextId
  liveNe : ∀ le ∈ c.registry, deviceTrace c.history le.id ≠ []
  liveNr : ∀ le ∈ c.registry, ∀ e ∈ deviceTrace c.history le.id, isRemEv e = false
  ok : ∀ d, traceOk (deviceTrace c.history d)

/-! ## Example data used by the witness theorems -/

/-- A raw descriptor of a 6-button, 2-axis, 1-dpad pad that the heuristic
classifies as gamepad plus joystick. -/
def exDesc : RawDescriptor :=
  { node := 7, name := "Example Pad", vendor := 4660, product := 22136
  , rawButtons := [⟨0, 255⟩, ⟨0, 255⟩, ⟨0, 1⟩, ⟨0, 1⟩, ⟨0, 1⟩, ⟨0, 1⟩]
  , rawAxes := [⟨-127, 127⟩, ⟨-127, 127⟩]
  , rawDpads := 1 }

/-- The Capability Model the Classifier produces for `exDesc`. -/
def exModel : DeviceModel :=
  { name := "Example Pad", types := 3
  , buttons := [⟨0, 255, true⟩, ⟨0, 255, true⟩, ⟨0, 1, false⟩,
                ⟨0, 1, false⟩, ⟨0, 1, false⟩, ⟨0, 1, false⟩]
  , axes := [⟨-127, 127⟩, ⟨-127, 127⟩]
  , dpads := [⟨false⟩] }

/-- A raw descriptor the Classifier rejects: no raw controls at all. -/
def rejDesc : RawDescriptor :=
  { node := 8, name := "Mystery Node", vendor := 1, product := 2
  , rawButtons := [], rawAxes := [], rawDpads := 0 }

def exEvent1 : js_event := ⟨0, .deviceAdded⟩

def exEvent2 : js_event := ⟨0, .sync⟩

/-- A context with two queued events, used to witness queue ordering. -/
def exCtx : js_ctx :=
  { nextId := 1, registry := [], queue := [exEvent1, exEvent2]
  , history := [exEvent1, exEvent2], pendingHotplug := [], pendingReports := [] }

def exLive : LiveDevice := ⟨0, 7, exModel, freshTState exModel⟩

/-- A context holding one live device, used to witness report handling. -/
def exCtxLive : js_ctx :=
  { nextId := 1, registry := [exLive], queue := [exEvent1]
  , history := [exEvent1], pendingHotplug := [], pendingReports := [] }

/-- A report cycle pressing raw button 0 to its maximum. -/
def exBatch : RawBatch :=
  { buttonReports := [(0, 255)], axisReports := [], dpadReports := [] }

/-! # Theorems -/

/-! ## Clamping and normalization -/

theorem clampInt_mem (lo hi v : Int) (h : lo ≤ hi) :
    lo ≤ clampInt lo hi v ∧ clampInt lo hi v ≤ hi :=
  ⟨le_max_left _ _, max_le h (min_le_right v hi)⟩

theorem clampInt_high (lo hi v : Int) (h : lo ≤ hi) (hv : hi < v) :
    clampInt lo hi v = hi := by
  unfold clampInt
  rw [min_eq_right hv.le, max_eq_right h]

theorem clampInt_low (lo hi v : Int) (hv : v < lo) :
    clampInt lo hi v = lo := by
  unfold clampInt
  exact max_eq_left ((min_le_left v hi).trans hv.le)

theorem clampInt_hi_self (lo hi : Int) (h : lo ≤ hi) : clampInt lo hi hi = hi := by
  unfold clampInt
  rw [min_self, max_eq_right h]

theorem clampInt_lo_self (lo hi : Int) (h : lo ≤ hi) : clampInt lo hi lo = lo := by
  unfold clampInt
  rw [min_eq_left h, max_self]

theorem js_normalize_button_bounds (minv maxv raw : Int) (h : minv < maxv) :
    0 ≤ js_normalize_button minv maxv raw ∧ js_normalize_button minv maxv raw ≤ 65535 := by
  obtain ⟨h1, h2⟩ := clampInt_mem minv maxv raw h.le
  have hd : (0 : Int) < maxv - minv := by omega
  unfold js_normalize_button
  constructor
  · exact Int.ediv_nonneg (mul_nonneg (by omega) (by norm_num)) hd.le
  · calc (clampInt minv maxv raw - minv) * 65535 / (maxv - minv)
        ≤ (maxv - minv) * 65535 / (maxv - minv) :=
          Int.ediv_le_ediv hd (mul_le_mul_of_nonneg_right (by omega) (by norm_num))
      _ = 65535 := by
          rw [mul_comm]
          exact Int.mul_ediv_cancel 65535 (by omega)

/-- Claim C6: every raw control value is mapped to the 16-bit normalized
range using the control's transport-provided physical minimum and maximum;
a raw value outside the declared physical range is clamped to the range
boundary (the normalization of an out-of-range value equals the
normalization of the boundary), and normalization is total — it always
produces an in-range value and never an error. -/
theorem js_normalize_clamps (minv maxv raw : Int) (h : minv < maxv) :
    (maxv < raw →
      js_normalize_button minv maxv raw = js_normalize_button minv maxv maxv
      ∧ js_normalize_axis minv maxv raw = js_normalize_axis minv maxv maxv)
    ∧ (raw < minv →
      js_normalize_button minv maxv raw = js_normalize_button minv maxv minv
      ∧ js_normalize_axis minv maxv raw = js_normalize_axis minv maxv minv)
    ∧ (0 ≤ js_normalize_button minv maxv raw
      ∧ js_normalize_button minv maxv raw ≤ 65535)
    ∧ ((-32768) ≤ js_normalize_axis minv maxv raw
      ∧ js_normalize_axis minv maxv raw ≤ 32767) := by
  obtain ⟨hb0, hb1⟩ := js_normalize_button_bounds minv maxv raw h
  refine ⟨?_, ?_, ⟨hb0, hb1⟩, ?_⟩
  · intro hv
    have hbtn : js_normalize_button minv maxv raw = js_normalize_button minv maxv maxv := by
      unfold js_normalize_button
      rw [clampInt_high minv maxv raw h.le hv, clampInt_hi_self minv maxv h.le]
    exact ⟨hbtn, by unfold js_normalize_axis; rw [hbtn]⟩
  · intro hv
    have hbtn : js_normalize_button minv maxv raw = js_normalize_button minv maxv minv := by
      unfold js_normalize_button
      rw [clampInt_low minv maxv raw hv, clampInt_lo_self minv maxv h.le]
    exact ⟨hbtn, by unfold js_normalize_axis; rw [hbtn]⟩
  · unfold js_normalize_axis
    omega

theorem js_normalize_clamps_witness :
    js_normalize_button 0 255 300 = js_normalize_button 0 255 255
    ∧ js_normalize_button 0 255 300 = 65535 :=
  ⟨((js_normalize_clamps 0 255 300 (by norm_num)).1 (by norm_num)).1, by decide⟩

/-! ## Per-control event queries -/

/-- Claim C10: for every event and every control handle that does not
belong to the event's associated device, the per-control event queries are
total and return the sentinel rather than failing: the changed queries
return false, the axis value query sets x, y, z to 0 and returns false,
and the button value query reports value 0. -/
theorem event_queries_sentinel (e : js_event) (a : AxisRef) (b : ButtonRef)
    (ha : a.device ≠ e.device) (hb : b.device ≠ e.device) :
    js_event_axis_has_changed e a = false
    ∧ js_event_axis_get_value e a = (false, 0, 0, 0)
    ∧ js_event_button_value_has_changed e b = false
    ∧ js_event_button_get_value e b = (false, 0) := by
  have ha' : (a.device == e.device) = false := beq_eq_false_iff_ne.2 ha
  have hb' : (b.device == e.device) = false := beq_eq_false_iff_ne.2 hb
  obtain ⟨d, p⟩ := e
  cases p <;>
    simp_all [js_event_axis_has_changed, js_event_axis_get_value,
      js_event_button_value_has_changed, js_event_button_get_value]

theorem event_queries_sentinel_witness :
    js_event_axis_get_value ⟨0, .axisChange 0 ⟨1, 2, 3⟩⟩ ⟨1, 0⟩ = (false, 0, 0, 0)
    ∧ js_event_button_get_value ⟨0, .buttonValue 0 7⟩ ⟨1, 0⟩ = (false, 0) :=
  ⟨(event_queries_sentinel ⟨0, .axisChange 0 ⟨1, 2, 3⟩⟩ ⟨1, 0⟩ ⟨1, 0⟩
      (by decide) (by decide)).2.1,
   (event_queries_sentinel ⟨0, .buttonValue 0 7⟩ ⟨1, 0⟩ ⟨1, 0⟩
      (by decide) (by decide)).2.2.2⟩

/-! ## Threshold determinism -/

theorem buttonRun_det {s : Bool} {vs : List Int} {o1 o2 : List Bool}
    (h1 : ButtonRun s vs o1) (h2 : ButtonRun s vs o2) : o1 = o2 := by
  induction h1 generalizing o2 with
  | nil s => cases h2; rfl
  | same s v vs out h hr ih =>
    cases h2 with
    | same _ _ _ _ h' hr' => exact ih hr'
    | change _ _ _ _ h' hr' => exact absurd h h'
  | change s v vs out h hr ih =>
    cases h2 with
    | same _ _ _ _ h' hr' => exact absurd h' h
    | change _ _ _ _ h' hr' => rw [ih hr']

theorem buttonRun_total (s : Bool) (vs : List Int) :
    ButtonRun s vs (runButtonSeq s vs) := by
  induction vs generalizing s with
  | nil => exact .nil s
  | cons v vs ih =>
    by_cases h : buttonLogic s v = s
    · rw [runButtonSeq, if_pos h]
      exact .same s v vs _ h (ih s)
    · rw [runButtonSeq, if_neg h]
      exact .change s v vs _ h (ih (buttonLogic s v))

/-- Claim C9: the analog-button down/up threshold decision is
deterministic — any two runs of the translator's threshold relation on the
same raw value sequence, both starting from the fresh (released) state,
emit identical sequences of logical button-state changes, and the
functional translator realizes the relation. -/
theorem threshold_decision_deterministic :
    (∀ vs : List Int, ∀ o1 o2 : List Bool,
      ButtonRun false vs o1 → ButtonRun false vs o2 → o1 = o2)
    ∧ (∀ vs : List Int, ButtonRun false vs (runButtonSeq false vs)) :=
  ⟨fun _ _ _ h1 h2 => buttonRun_det h1 h2, fun vs => buttonRun_total false vs⟩

theorem threshold_decision_deterministic_witness :
    runButtonSeq false [65535, 0, 30000] = [true, false] := by
  have h := threshold_decision_deterministic
  have e1 : buttonLogic false 65535 = true := by decide
  have e2 : buttonLogic true 0 = false := by decide
  have e3 : buttonLogic false 30000 = false := by decide
  have d2 : ButtonRun false [65535, 0, 30000] [true, false] := by
    rw [show ([true, false] : List Bool) = buttonLogic false 65535 :: [false] by
      rw [e1]]
    refine ButtonRun.change _ _ _ _ (by simp [e1]) ?_
    rw [e1, show ([false] : List Bool) = buttonLogic true 0 :: [] by rw [e2]]
    refine ButtonRun.change _ _ _ _ (by simp [e2]) ?_
    rw [e2]
    exact ButtonRun.same _ _ _ _ e3 (ButtonRun.nil false)
  exact h.1 [65535, 0, 30000] _ [true, false] (h.2 _) d2

/-! ## Queue FIFO discipline -/

theorem get_event_fst (c : js_ctx) : (js_ctx_get_event c).1 = c.queue.head? := by
  cases hq : c.queue <;> simp [js_ctx_get_event, hq]

theorem popCtx_queue (c : js_ctx) : (popCtx c).queue = c.queue.tail := by
  cases hq : c.queue <;> simp [popCtx, js_ctx_get_event, hq]

theorem popCtx_iterate_queue (n : Nat) (c : js_ctx) :
    (popCtx^[n] c).queue = c.queue.drop n := by
  induction n generalizing c with
  | zero => simp
  | succ n ih =>
    rw [Function.iterate_succ_apply, ih (popCtx c), popCtx_queue,
      ← List.drop_one, List.drop_drop, Nat.add_comm]

theorem nthReturned_eq (c : js_ctx) (n : Nat) : nthReturned c n = c.queue[n]? := by
  unfold nthReturned
  rw [get_event_fst, popCtx_iterate_queue]
  exact List.head?_drop c.queue n

/-- Claim C1: `js_ctx_get_event` pops and returns the oldest queued event —
the `n`-th successive call returns the `n`-th enqueued event still pending,
so an event enqueued before another is returned before it; it returns the
NULL sentinel when no event is pending; and it never performs I/O — it
leaves the history, the registry and all pending source data untouched,
while enqueueing appends at the tail of the queue. -/
theorem js_ctx_get_event_fifo (c : js_ctx) :
    ((js_ctx_get_event c).1 = c.queue.head?)
    ∧ (c.queue = [] → (js_ctx_get_event c).1 = none)
    ∧ ((js_ctx_get_event c).2.history = c.history
      ∧ (js_ctx_get_event c).2.registry = c.registry
      ∧ (js_ctx_get_event c).2.pendingHotplug = c.pendingHotplug
      ∧ (js_ctx_get_event c).2.pendingReports = c.pendingReports)
    ∧ (∀ n : Nat, nthReturned c n = c.queue[n]?)
    ∧ (∀ e : js_event, (enqueue c e).queue = c.queue ++ [e])
    ∧ (∀ i j : Nat, ∀ e1 e2 : js_event, i < j →
      c.queue[i]? = some e1 → c.queue[j]? = some e2 →
      nthReturned c i = some e1 ∧ nthReturned c j = some e2) := by
  refine ⟨get_event_fst c, ?_, ?_, nthReturned_eq c, ?_, ?_⟩
  · intro h
    rw [get_event_fst, h]
    rfl
  · cases hq : c.queue <;> simp [js_ctx_get_event, hq]
  · intro e
    simp [enqueue]
  · intro i j e1 e2 _ h1 h2
    exact ⟨(nthReturned_eq c i).trans h1, (nthReturned_eq c j).trans h2⟩

theorem js_ctx_get_event_fifo_witness :
    nthReturned exCtx 0 = some exEvent1 ∧ nthReturned exCtx 1 = some exEvent2 :=
  (js_ctx_get_event_fifo exCtx).2.2.2.2.2 0 1 exEvent1 exEvent2
    (by decide) (by decide) (by decide)

/-! ## Dispatch on a drained context -/

theorem handleHotplug_pending (c : js_ctx) (n : HotplugNotice) :
    (handleHotplug c n).pendingHotplug = c.pendingHotplug
    ∧ (handleHotplug c n).pendingReports = c.pendingReports := by
  unfold handleHotplug
  cases n with
  | add desc => cases h : js_classify desc <;> simp [h, enqueue]
  | remove node =>
    cases h : c.registry.find? (fun le => le.node == node) <;> simp [h, enqueue]

theorem handleReport_pending (c : js_ctx) (r : Nat × RawBatch) :
    (handleReport c r).pendingHotplug = c.pendingHotplug
    ∧ (handleReport c r).pendingReports = c.pendingReports := by
  unfold handleReport
  cases h : c.registry.find? (fun le => le.id == r.1) <;> simp [h, enqueueAll]

theorem foldl_pres_field {α γ : Type} (f : js_ctx → α → js_ctx) (g : js_ctx → γ)
    (hf : ∀ c x, g (f c x) = g c) (l : List α) (c : js_ctx) :
    g (List.foldl f c l) = g c := by
  induction l generalizing c with
  | nil => rfl
  | cons x t ih => rw [List.foldl_cons, ih, hf]

theorem dispatch_pending (c : js_ctx) :
    (js_ctx_dispatch c).pendingHotplug = [] ∧ (js_ctx_dispatch c).pendingReports = [] := by
  unfold js_ctx_dispatch
  constructor
  · rw [foldl_pres_field handleReport (fun x => x.pendingHotplug)
        (fun c x => (handleReport_pending c x).1),
      foldl_pres_field handleHotplug (fun x => x.pendingHotplug)
        (fun c x => (handleHotplug_pending c x).1)]
  · rw [foldl_pres_field handleReport (fun x => x.pendingReports)
        (fun c x => (handleReport_pending c x).2),
      foldl_pres_field handleHotplug (fun x => x.pendingReports)
        (fun c x => (handleHotplug_pending c x).2)]

theorem dispatch_of_empty (c : js_ctx) (h1 : c.pendingHotplug = [])
    (h2 : c.pendingReports = []) : js_ctx_dispatch c = c := by
  obtain ⟨n, reg, q, hh, pH, pR⟩ := c
  simp only at h1 h2
  subst h1
  subst h2
  rfl

/-- Claim C5: calling `js_ctx_dispatch` on a context when no new pending
data is available from any owned source enqueues zero additional events and
leaves the context unchanged; dispatch always drains all pending data, so
dispatching twice equals dispatching once. -/
theorem js_ctx_dispatch_idempotent (c : js_ctx) :
    (c.pendingHotplug = [] → c.pendingReports = [] →
      js_ctx_dispatch c = c
      ∧ (js_ctx_dispatch c).history = c.history
      ∧ (js_ctx_dispatch c).queue = c.queue)
    ∧ (js_ctx_dispatch c).pendingHotplug = []
    ∧ (js_ctx_dispatch c).pendingReports = []
    ∧ js_ctx_dispatch (js_ctx_dispatch c) = js_ctx_dispatch c := by
  obtain ⟨hp1, hp2⟩ := dispatch_pending c
  refine ⟨?_, hp1, hp2, dispatch_of_empty _ hp1 hp2⟩
  intro h1 h2
  have he := dispatch_of_empty c h1 h2
  exact ⟨he, by rw [he], by rw [he]⟩

theorem js_ctx_dispatch_idempotent_witness :
    js_ctx_dispatch initCtx = initCtx
    ∧ (js_ctx_dispatch initCtx).history = initCtx.history :=
  ⟨((js_ctx_dispatch_idempotent initCtx).1 rfl rfl).1,
   ((js_ctx_dispatch_idempotent initCtx).1 rfl rfl).2.1⟩

/-! ## Device type bitmask -/

theorem maskOfList_lt (l : List js_device_type) : maskOfList l < 64 := by
  induction l with
  | nil => decide
  | cons t r ih =>
    have h1 : 2 ^ typeBit t < 64 := by cases t <;> decide
    exact @Nat.or_lt_two_pow _ _ 6 h1 ih

theorem guessTypes_lt (d : RawDescriptor) : guessTypes d < 64 := by
  unfold guessTypes
  split_ifs <;> decide

theorem classifiedTypes_lt (d : RawDescriptor) : classifiedTypes d < 64 := by
  unfold classifiedTypes
  cases hq : findQuirk d.vendor d.product with
  | none => exact guessTypes_lt d
  | some q =>
    cases ho : q.typeOverride with
    | none =>
      simp only [ho]
      exact @Nat.or_lt_two_pow _ _ 6 (guessTypes_lt d) (maskOfList_lt _)
    | some l =>
      simp only [ho]
      exact @Nat.or_lt_two_pow _ _ 6 (maskOfList_lt l) (maskOfList_lt _)

theorem exists_type_of_mask (n : Nat) (h64 : n < 64) (h0 : n ≠ 0) :
    ∃ t : js_device_type, n.testBit (typeBit t) = true := by
  by_contra hc
  push_neg at hc
  have hc' : ∀ t : js_device_type, n.testBit (typeBit t) = false := by
    intro t
    cases h : n.testBit (typeBit t)
    · rfl
    · exact absurd h (hc t)
  apply h0
  apply Nat.zero_of_testBit_eq_false
  intro i
  by_cases hi : i < 6
  · interval_cases i
    · exact hc' .joystick
    · exact hc' .gamepad
    · exact hc' .wheel
    · exact hc' .throttle
    · exact hc' .pedals
    · exact hc' .remote
  · refine Nat.testBit_lt_two_pow (Nat.lt_of_lt_of_le h64 ?_)
    calc (64 : Nat) = 2 ^ 6 := rfl
      _ ≤ 2 ^ i := Nat.pow_le_pow_right (by norm_num) (by omega)

/-- Claim C7: every device carries a type bitmask over the six types in
which multiple type bits may be set simultaneously and independently —
`js_device_has_type` returns true exactly for the types whose bit is set,
and the encoding is unambiguous for every combination of set types; for
every successfully classified device the set of type bits is non-empty. -/
theorem device_type_bits (d : RawDescriptor) (m : DeviceModel) :
    (∀ j g w t p r : Bool,
      js_device_has_type (mkDev (typeMask6 j g w t p r)) .joystick = j
      ∧ js_device_has_type (mkDev (typeMask6 j g w t p r)) .gamepad = g
      ∧ js_device_has_type (mkDev (typeMask6 j g w t p r)) .wheel = w
      ∧ js_device_has_type (mkDev (typeMask6 j g w t p r)) .throttle = t
      ∧ js_device_has_type (mkDev (typeMask6 j g w t p r)) .pedals = p
      ∧ js_device_has_type (mkDev (typeMask6 j g w t p r)) .remote = r)
    ∧ (∀ j g w t p r j' g' w' t' p' r' : Bool,
      typeMask6 j g w t p r = typeMask6 j' g' w' t' p' r' →
      j = j' ∧ g = g' ∧ w = w' ∧ t = t' ∧ p = p' ∧ r = r')
    ∧ (js_classify d = some m →
      m.types ≠ 0 ∧ m.types < 64 ∧ ∃ τ, js_device_has_type m τ = true) := by
  refine ⟨by decide, by decide, ?_⟩
  intro h
  unfold js_classify at h
  split at h
  · exact absurd h (by simp)
  · rename_i hne
    injection h with h2
    subst h2
    exact ⟨hne, classifiedTypes_lt d, exists_type_of_mask _ (classifiedTypes_lt d) hne⟩

theorem device_type_bits_witness :
    exModel.types ≠ 0 ∧ exModel.types < 64
    ∧ ∃ τ, js_device_has_type exModel τ = true :=
  (device_type_bits exDesc exModel).2.2 rfl

/-! ## Classifier: all or nothing -/

/-- Claim C8: classification is all-or-nothing — the Classifier either
produces a complete Capability Model (the type bitmask is non-empty and
every surviving raw control is represented) or rejects the device outright:
handling the hotplug notice of a rejected node leaves the context fully
unchanged, so no device is created and no event is ever enqueued for it,
and processing any notice sequence containing the rejected node equals
processing the sequence with that notice removed. -/
theorem classify_all_or_nothing (c : js_ctx) (d : RawDescriptor)
    (l1 l2 : List HotplugNotice) :
    (js_classify d = none → handleHotplug c (.add d) = c)
    ∧ (js_classify d = none →
      List.foldl handleHotplug c (l1 ++ HotplugNotice.add d :: l2)
        = List.foldl handleHotplug c (l1 ++ l2))
    ∧ (∀ m, js_classify d = some m →
      m.types = classifiedTypes d ∧ m.types ≠ 0
      ∧ m.buttons.length
          = (survivingButtons d (excludedOf (findQuirk d.vendor d.product))).length
      ∧ m.axes.length = d.rawAxes.length
      ∧ m.dpads.length = d.rawDpads) := by
  have hrej : js_classify d = none → ∀ c', handleHotplug c' (.add d) = c' := by
    intro h c'
    simp only [handleHotplug, h]
  refine ⟨fun h => hrej h c, ?_, ?_⟩
  · intro h
    rw [List.foldl_append, List.foldl_append, List.foldl_cons, hrej h]
  · intro m h
    unfold js_classify at h
    split at h
    · exact absurd h (by simp)
    · rename_i hne
      injection h with h2
      subst h2
      refine ⟨rfl, hne, ?_, rfl, ?_⟩
      · simp
      · simp

theorem classify_all_or_nothing_witness :
    handleHotplug initCtx (.add rejDesc) = initCtx :=
  (classify_all_or_nothing initCtx rejDesc [] []).1 rfl

/-! ## Event translator: cycle shape -/

theorem translateBatch_snd (m : DeviceModel) (did : Nat) (st : TranslatorState)
    (b : RawBatch) :
    (translateBatch m did st b).2
      = buttonEvents m did st b ++ axisEvents m did st b ++ dpadEvents m did st b
        ++ [⟨did, .sync⟩] := rfl

theorem buttonEventAt_shape {m : DeviceModel} {did : Nat} {st : TranslatorState}
    {b : RawBatch} {j : Nat} {e : js_event} (he : e ∈ buttonEventAt m did st b j) :
    e = ⟨did, .buttonValue j (buttonNewValOf m st b j)⟩
    ∨ e = ⟨did, .buttonState j (buttonNewStateOf m st b j)⟩ := by
  unfold buttonEventAt at he
  cases h : mergedButtonUpdate b.buttonReports j with
  | none => rw [h] at he; simp at he
  | some raw =>
    rw [h] at he
    rcases List.mem_append.1 he with h1 | h1 <;> [left; right] <;>
      (split at h1 <;> simp_all)

theorem axisEventAt_shape {m : DeviceModel} {did : Nat} {st : TranslatorState}
    {b : RawBatch} {j : Nat} {e : js_event} (he : e ∈ axisEventAt m did st b j) :
    e = ⟨did, .axisChange j (axisNewOf m st b j)⟩
    ∧ axisNewOf m st b j ≠ axisLastOf st j := by
  unfold axisEventAt at he
  split at he
  · rename_i hch
    simp at he
    exact ⟨he, hch⟩
  · simp at he

theorem dpadEventAt_shape {did : Nat} {st : TranslatorState} {b : RawBatch}
    {j : Nat} {e : js_event} (he : e ∈ dpadEventAt did st b j) :
    e = ⟨did, .dpadChange j (dpadNewOf st b j)⟩ := by
  unfold dpadEventAt at he
  split at he <;> simp_all

theorem mem_buttonEvents {m : DeviceModel} {did : Nat} {st : TranslatorState}
    {b : RawBatch} {e : js_event} (he : e ∈ buttonEvents m did st b) :
    e.device = did ∧ isButtonEv e = true := by
  obtain ⟨j, _, hej⟩ := List.mem_flatMap.1 he
  rcases buttonEventAt_shape hej with h | h <;> subst h <;> exact ⟨rfl, rfl⟩

theorem mem_axisEvents {m : DeviceModel} {did : Nat} {st : TranslatorState}
    {b : RawBatch} {e : js_event} (he : e ∈ axisEvents m did st b) :
    e.device = did ∧ isAxisEv e = true := by
  obtain ⟨j, _, hej⟩ := List.mem_flatMap.1 he
  obtain ⟨h, _⟩ := axisEventAt_shape hej
  subst h
  exact ⟨rfl, rfl⟩

theorem mem_dpadEvents {m : DeviceModel} {did : Nat} {st : TranslatorState}
    {b : RawBatch} {e : js_event} (he : e ∈ dpadEvents m did st b) :
    e.device = did ∧ isDpadEv e = true := by
  obtain ⟨j, _, hej⟩ := List.mem_flatMap.1 he
  have h := dpadEventAt_shape hej
  subst h
  exact ⟨rfl, rfl⟩

theorem buttonEv_only {e : js_event} (h : isButtonEv e = true) (j : Nat) :
    isAxisEvFor j e = false ∧ isDpadEvFor j e = false ∧ isSyncEv e = false := by
  obtain ⟨d, p⟩ := e
  cases p <;> simp_all [isButtonEv, isAxisEvFor, isDpadEvFor, isSyncEv]

theorem axisEv_only {e : js_event} (h : isAxisEv e = true) (j : Nat) :
    isButtonValueEvFor j e = false ∧ isButtonStateEvFor j e = false
    ∧ isDpadEvFor j e = false ∧ isSyncEv e = false := by
  obtain ⟨d, p⟩ := e
  cases p <;>
    simp_all [isAxisEv, isButtonValueEvFor, isButtonStateEvFor, isDpadEvFor, isSyncEv]

theorem dpadEv_only {e : js_event} (h : isDpadEv e = true) (j : Nat) :
    isAxisEvFor j e = false ∧ isButtonValueEvFor j e = false
    ∧ isButtonStateEvFor j e = false ∧ isSyncEv e = false := by
  obtain ⟨d, p⟩ := e
  cases p <;>
    simp_all [isDpadEv, isAxisEvFor, isButtonValueEvFor, isButtonStateEvFor, isSyncEv]

theorem countP_zero_of (l : List js_event) (p : js_event → Bool)
    (h : ∀ e ∈ l, p e = false) : l.countP p = 0 :=
  List.countP_eq_zero.2 fun e he => by simp [h e he]

/-- Claim C3: for every processed raw-report batch of a device the Event
Translator emits an ordered sequence of change events followed by exactly
one sync event — exactly one sync even when no control changed — ordered as
button events, then axis events, then dpad events, then the sync marker;
and report handling appends the whole cycle to the queue in one block, so a
device's events for one cycle are contiguous in the queue. -/
theorem translator_cycle_shape (m : DeviceModel) (did : Nat) (st : TranslatorState)
    (b : RawBatch) (c : js_ctx) :
    (∃ B A D, (translateBatch m did st b).2 = B ++ A ++ D ++ [⟨did, .sync⟩]
      ∧ (∀ e ∈ B, e.device = did ∧ isButtonEv e = true)
      ∧ (∀ e ∈ A, e.device = did ∧ isAxisEv e = true)
      ∧ (∀ e ∈ D, e.device = did ∧ isDpadEv e = true))
    ∧ (translateBatch m did st b).2.countP isSyncEv = 1
    ∧ (∀ le, c.registry.find? (fun x => x.id == did) = some le →
      (handleReport c (did, b)).queue
        = c.queue ++ (translateBatch le.model did le.tstate b).2) := by
  refine ⟨⟨buttonEvents m did st b, axisEvents m did st b, dpadEvents m did st b,
      rfl, fun e he => mem_buttonEvents he, fun e he => mem_axisEvents he,
      fun e he => mem_dpadEvents he⟩, ?_, ?_⟩
  · rw [translateBatch_snd, List.countP_append, List.countP_append,
      List.countP_append]
    have hB : (buttonEvents m did st b).countP isSyncEv = 0 :=
      countP_zero_of _ _ fun e he => (buttonEv_only (mem_buttonEvents he).2 0).2.2
    have hA : (axisEvents m did st b).countP isSyncEv = 0 :=
      countP_zero_of _ _ fun e he => (axisEv_only (mem_axisEvents he).2 0).2.2.2
    have hD : (dpadEvents m did st b).countP isSyncEv = 0 :=
      countP_zero_of _ _ fun e he => (dpadEv_only (mem_dpadEvents he).2 0).2.2.2
    rw [hB, hA, hD]
    rfl
  · intro le hle
    have hid : le.id = did := by
      have hb := List.find?_some hle
      exact eq_of_beq hb
    simp only [handleReport, hle]
    simp [enqueueAll, hid]

theorem translator_cycle_shape_witness :
    (translateBatch exModel 0 (freshTState exModel) exBatch).2.countP isSyncEv = 1
    ∧ (handleReport exCtxLive (0, exBatch)).queue
      = exCtxLive.queue ++ (translateBatch exLive.model 0 exLive.tstate exBatch).2 :=
  ⟨(translator_cycle_shape exModel 0 (freshTState exModel) exBatch exCtxLive).2.1,
   (translator_cycle_shape exModel 0 (freshTState exModel) exBatch exCtxLive).2.2
     exLive rfl⟩

/-! ## Event translator: per-control change collapsing -/

theorem countP_flatMap_le_one {α : Type} (f : Nat → List α) (p : α → Bool) (i : Nat)
    (hf : ∀ j e, e ∈ f j → p e = true → j = i)
    (hcap : (f i).countP p ≤ 1) :
    ∀ l : List Nat, l.Nodup → (l.flatMap f).countP p ≤ 1 := by
  intro l
  induction l with
  | nil =>
    intro _
    simp
  | cons j t ih =>
    intro hnd
    rw [List.flatMap_cons, List.countP_append]
    rw [List.nodup_cons] at hnd
    obtain ⟨hj, ht⟩ := hnd
    by_cases hji : j = i
    · subst hji
      have hz : (t.flatMap f).countP p = 0 := by
        rw [List.countP_eq_zero]
        intro a ha hpa
        obtain ⟨k, hk, hak⟩ := List.mem_flatMap.1 ha
        exact hj ((hf k a hak hpa) ▸ hk)
      omega
    · have hz : (f j).countP p = 0 := by
        rw [List.countP_eq_zero]
        intro a ha hpa
        exact hji (hf j a ha hpa)
      have := ih ht
      omega

theorem axisEventAt_len (m : DeviceModel) (did : Nat) (st : TranslatorState)
    (b : RawBatch) (i : Nat) : (axisEventAt m did st b i).length ≤ 1 := by
  unfold axisEventAt
  split <;> simp

theorem dpadEventAt_len (did : Nat) (st : TranslatorState) (b : RawBatch)
    (i : Nat) : (dpadEventAt did st b i).length ≤ 1 := by
  unfold dpadEventAt
  split <;> simp

theorem buttonEventAt_counts (m : DeviceModel) (did : Nat) (st : TranslatorState)
    (b : RawBatch) (i : Nat) :
    (buttonEventAt m did st b i).countP (isButtonValueEvFor i) ≤ 1
    ∧ (buttonEventAt m did st b i).countP (isButtonStateEvFor i) ≤ 1 := by
  unfold buttonEventAt
  cases mergedButtonUpdate b.buttonReports i with
  | none => simp
  | some raw =>
    constructor <;>
      (rw [List.countP_append]
       split_ifs <;>
         simp [List.countP_cons, isButtonValueEvFor, isButtonStateEvFor])

theorem axisEvents_countFor (m : DeviceModel) (did : Nat) (st : TranslatorState)
    (b : RawBatch) (i : Nat) :
    (axisEvents m did st b).countP (isAxisEvFor i) ≤ 1 := by
  refine countP_flatMap_le_one _ _ i ?_
    ((List.countP_le_length _).trans (axisEventAt_len m did st b i))
    _ (List.nodup_range _)
  intro j e hej hp
  obtain ⟨he, _⟩ := axisEventAt_shape hej
  subst he
  simpa [isAxisEvFor] using hp

theorem dpadEvents_countFor (m : DeviceModel) (did : Nat) (st : TranslatorState)
    (b : RawBatch) (i : Nat) :
    (dpadEvents m did st b).countP (isDpadEvFor i) ≤ 1 := by
  refine countP_flatMap_le_one _ _ i ?_
    ((List.countP_le_length _).trans (dpadEventAt_len did st b i))
    _ (List.nodup_range _)
  intro j e hej hp
  have he := dpadEventAt_shape hej
  subst he
  simpa [isDpadEvFor] using hp

theorem buttonEvents_countValFor (m : DeviceModel) (did : Nat) (st : TranslatorState)
    (b : RawBatch) (i : Nat) :
    (buttonEvents m did st b).countP (isButtonValueEvFor i) ≤ 1 := by
  refine countP_flatMap_le_one _ _ i ?_ (buttonEventAt_counts m did st b i).1
    _ (List.nodup_range _)
  intro j e hej hp
  rcases buttonEventAt_shape hej with he | he <;> subst he <;>
    simp_all [isButtonValueEvFor]

theorem buttonEvents_countStateFor (m : DeviceModel) (did : Nat) (st : TranslatorState)
    (b : RawBatch) (i : Nat) :
    (buttonEvents m did st b).countP (isButtonStateEvFor i) ≤ 1 := by
  refine countP_flatMap_le_one _ _ i ?_ (buttonEventAt_counts m did st b i).2
    _ (List.nodup_range _)
  intro j e hej hp
  rcases buttonEventAt_shape hej with he | he <;> subst he <;>
    simp_all [isButtonStateEvFor]

/-- Claim C4: within one report cycle at most one change event per control
kind is emitted for each control — at most one axis-changed event per axis,
at most one button-value, one button-state and one dpad event per control —
and an axis emits its event exactly when at least one dimension changed
from the stored last value; the event carries the full (x, y, z) triple
with dimensions unset in the cycle reported as their last known value. -/
theorem axis_change_collapsed (m : DeviceModel) (did : Nat) (st : TranslatorState)
    (b : RawBatch) (i : Nat) (hi : i < m.axes.length) :
    (translateBatch m did st b).2.countP (isAxisEvFor i) ≤ 1
    ∧ (axisNewOf m st b i ≠ axisLastOf st i ↔
      ⟨did, .axisChange i (axisNewOf m st b i)⟩ ∈ (translateBatch m did st b).2)
    ∧ (∀ e ∈ (translateBatch m did st b).2, isAxisEvFor i e = true →
      e = ⟨did, .axisChange i (axisNewOf m st b i)⟩)
    ∧ ((mergedAxisUpdate b.axisReports i).x = none →
      (axisNewOf m st b i).x = (axisLastOf st i).x)
    ∧ ((mergedAxisUpdate b.axisReports i).y = none →
      (axisNewOf m st b i).y = (axisLastOf st i).y)
    ∧ ((mergedAxisUpdate b.axisReports i).z = none →
      (axisNewOf m st b i).z = (axisLastOf st i).z)
    ∧ (∀ j : Nat, (translateBatch m did st b).2.countP (isButtonValueEvFor j) ≤ 1
      ∧ (translateBatch m did st b).2.countP (isButtonStateEvFor j) ≤ 1
      ∧ (translateBatch m did st b).2.countP (isDpadEvFor j) ≤ 1) := by
  have hmemA : ∀ e ∈ (translateBatch m did st b).2, isAxisEvFor i e = true →
      e ∈ axisEvents m did st b := by
    intro e he hp
    rw [translateBatch_snd] at he
    rcases List.mem_append.1 he with he1 | he1
    · rcases List.mem_append.1 he1 with he2 | he2
      · rcases List.mem_append.1 he2 with he3 | he3
        · exact absurd hp
            (by rw [(buttonEv_only (mem_buttonEvents he3).2 i).1]; simp)
        · exact he3
      · exact absurd hp
          (by rw [(dpadEv_only (mem_dpadEvents he2).2 i).1]; simp)
    · rw [List.mem_singleton.1 he1] at hp
      simp [isAxisEvFor] at hp
  refine ⟨?_, ⟨?_, ?_⟩, ?_, ?_, ?_, ?_, ?_⟩
  · rw [translateBatch_snd, List.countP_append, List.countP_append,
      List.countP_append]
    have hB : (buttonEvents m did st b).countP (isAxisEvFor i) = 0 :=
      countP_zero_of _ _ fun e he => (buttonEv_only (mem_buttonEvents he).2 i).1
    have hD : (dpadEvents m did st b).countP (isAxisEvFor i) = 0 :=
      countP_zero_of _ _ fun e he => (dpadEv_only (mem_dpadEvents he).2 i).1
    have hS : List.countP (isAxisEvFor i) [(⟨did, .sync⟩ : js_event)] = 0 := rfl
    have hA := axisEvents_countFor m did st b i
    omega
  · intro hch
    rw [translateBatch_snd]
    refine List.mem_append.2 (.inl (List.mem_append.2 (.inl (List.mem_append.2
      (.inr ?_)))))
    refine List.mem_flatMap.2 ⟨i, List.mem_range.2 hi, ?_⟩
    unfold axisEventAt
    rw [if_pos hch]
    exact List.mem_singleton_self _
  · intro hmem
    have he := hmemA _ hmem (by simp [isAxisEvFor])
    obtain ⟨j, _, hej⟩ := List.mem_flatMap.1 he
    obtain ⟨hsh, hch⟩ := axisEventAt_shape hej
    have hji : j = i := by
      have : (⟨did, .axisChange i (axisNewOf m st b i)⟩ : js_event)
          = ⟨did, .axisChange j (axisNewOf m st b j)⟩ := hsh
      injection this with _ h2
      injection h2 with h3 _
      exact h3.symm
    subst hji
    exact hch
  · intro e he hp
    have he' := hmemA e he hp
    obtain ⟨j, _, hej⟩ := List.mem_flatMap.1 he'
    obtain ⟨hsh, _⟩ := axisEventAt_shape hej
    have hji : j = i := by
      subst hsh
      simpa [isAxisEvFor] using hp
    subst hji
    exact hsh
  · intro hx
    simp [axisNewOf, applyAxisUpdate, normAxisUpdate, hx]
  · intro hy
    simp [axisNewOf, applyAxisUpdate, normAxisUpdate, hy]
  · intro hz
    simp [axisNewOf, applyAxisUpdate, normAxisUpdate, hz]
  · intro j
    have hBv := buttonEvents_countValFor m did st b j
    have hBs := buttonEvents_countStateFor m did st b j
    have hDc := dpadEvents_countFor m did st b j
    have hAv : (axisEvents m did st b).countP (isButtonValueEvFor j) = 0 :=
      countP_zero_of _ _ fun e he => (axisEv_only (mem_axisEvents he).2 j).1
    have hAs : (axisEvents m did st b).countP (isButtonStateEvFor j) = 0 :=
      countP_zero_of _ _ fun e he => (axisEv_only (mem_axisEvents he).2 j).2.1
    have hAd : (axisEvents m did st b).countP (isDpadEvFor j) = 0 :=
      countP_zero_of _ _ fun e he => (axisEv_only (mem_axisEvents he).2 j).2.2.1
    have hDv : (dpadEvents m did st b).countP (isButtonValueEvFor j) = 0 :=
      countP_zero_of _ _ fun e he => (dpadEv_only (mem_dpadEvents he).2 j).2.1
    have hDs : (dpadEvents m did st b).countP (isButtonStateEvFor j) = 0 :=
      countP_zero_of _ _ fun e he => (dpadEv_only (mem_dpadEvents he).2 j).2.2.1
    have hBd : (buttonEvents m did st b).countP (isDpadEvFor j) = 0 :=
      countP_zero_of _ _ fun e he => (buttonEv_only (mem_buttonEvents he).2 j).2.1
    have hSv : List.countP (isButtonValueEvFor j) [(⟨did, .sync⟩ : js_event)] = 0 := rfl
    have hSs : List.countP (isButtonStateEvFor j) [(⟨did, .sync⟩ : js_event)] = 0 := rfl
    have hSd : List.countP (isDpadEvFor j) [(⟨did, .sync⟩ : js_event)] = 0 := rfl
    refine ⟨?_, ?_, ?_⟩ <;>
      rw [translateBatch_snd, List.countP_append, List.countP_append,
        List.countP_append] <;>
      omega

/-! ## Device lifecycle invariant -/

theorem not_rem_of_state {e : js_event} (h : isStateEv e = true) :
    isRemEv e = false := by
  obtain ⟨d, p⟩ := e
  cases p <;> simp_all [isStateEv, isRemEv]

theorem translateBatch_events_state (m : DeviceModel) (did : Nat)
    (st : TranslatorState) (b : RawBatch) :
    ∀ e ∈ (translateBatch m did st b).2, e.device = did ∧ isStateEv e = true := by
  intro e he
  rw [translateBatch_snd] at he
  rcases List.mem_append.1 he with h1 | h1
  · rcases List.mem_append.1 h1 with h2 | h2
    · rcases List.mem_append.1 h2 with h3 | h3
      · obtain ⟨hd, hk⟩ := mem_buttonEvents h3
        refine ⟨hd, ?_⟩
        obtain ⟨dd, p⟩ := e
        cases p <;> simp_all [isButtonEv, isStateEv]
      · obtain ⟨hd, hk⟩ := mem_axisEvents h3
        refine ⟨hd, ?_⟩
        obtain ⟨dd, p⟩ := e
        cases p <;> simp_all [isAxisEv, isStateEv]
    · obtain ⟨hd, hk⟩ := mem_dpadEvents h2
      refine ⟨hd, ?_⟩
      obtain ⟨dd, p⟩ := e
      cases p <;> simp_all [isDpadEv, isStateEv]
  · rw [List.mem_singleton.1 h1]
    exact ⟨rfl, rfl⟩

theorem deviceTrace_append (h1 h2 : List js_event) (d : Nat) :
    deviceTrace (h1 ++ h2) d = deviceTrace h1 d ++ deviceTrace h2 d :=
  List.filter_append _ _

theorem deviceTrace_all {es : List js_event} {d : Nat}
    (h : ∀ e ∈ es, e.device = d) : deviceTrace es d = es :=
  List.filter_eq_self.2 fun e he => by simp [h e he]

theorem deviceTrace_nil {es : List js_event} {d : Nat}
    (h : ∀ e ∈ es, e.device ≠ d) : deviceTrace es d = [] := by
  unfold deviceTrace
  rw [List.filter_eq_nil_iff]
  intro e he
  simp [h e he]

theorem deviceTrace_append_same (h1 : List js_event) {h2 : List js_event} {d : Nat}
    (hall : ∀ e ∈ h2, e.device = d) :
    deviceTrace (h1 ++ h2) d = deviceTrace h1 d ++ h2 := by
  rw [deviceTrace_append, deviceTrace_all hall]

theorem deviceTrace_append_other (h1 : List js_event) {h2 : List js_event} {d : Nat}
    (hall : ∀ e ∈ h2, e.device ≠ d) :
    deviceTrace (h1 ++ h2) d = deviceTrace h1 d := by
  rw [deviceTrace_append, deviceTrace_nil hall, List.append_nil]

theorem midOk_states {es : List js_event} (h : ∀ e ∈ es, isStateEv e = true) :
    midOk es := by
  induction es with
  | nil => trivial
  | cons e t ih =>
    exact Or.inl ⟨h e (List.mem_cons_self e t), ih fun x hx => h x (List.mem_cons_of_mem e hx)⟩

theorem midOk_append_states {t es : List js_event} (ht : midOk t)
    (hnr : ∀ e ∈ t, isRemEv e = false) (hs : ∀ e ∈ es, isStateEv e = true) :
    midOk (t ++ es) := by
  induction t with
  | nil => simpa using midOk_states hs
  | cons x r ih =>
    simp only [midOk] at ht
    rcases ht with ⟨hse, hr⟩ | ⟨hre, _⟩
    · exact Or.inl ⟨hse, ih hr fun y hy => hnr y (List.mem_cons_of_mem x hy)⟩
    · exact absurd (hnr x (List.mem_cons_self x r)) (by simp [hre])

theorem midOk_append_rem {t : List js_event} {e : js_event} (ht : midOk t)
    (hnr : ∀ x ∈ t, isRemEv x = false) (he : isRemEv e = true) :
    midOk (t ++ [e]) := by
  induction t with
  | nil => exact Or.inr ⟨he, rfl⟩
  | cons x r ih =>
    simp only [midOk] at ht
    rcases ht with ⟨hs, hr⟩ | ⟨hre, _⟩
    · exact Or.inl ⟨hs, ih hr fun y hy => hnr y (List.mem_cons_of_mem x hy)⟩
    · exact absurd (hnr x (List.mem_cons_self x r)) (by simp [hre])

theorem traceOk_append_states {t es : List js_event} (ht : traceOk t)
    (hne : t ≠ []) (hnr : ∀ e ∈ t, isRemEv e = false)
    (hs : ∀ e ∈ es, isStateEv e = true) : traceOk (t ++ es) := by
  cases t with
  | nil => exact absurd rfl hne
  | cons a r =>
    simp only [traceOk] at ht
    obtain ⟨ha, hm⟩ := ht
    exact ⟨ha, midOk_append_states hm
      (fun e he => hnr e (List.mem_cons_of_mem a he)) hs⟩

theorem traceOk_append_rem {t : List js_event} {e : js_event} (ht : traceOk t)
    (hne : t ≠ []) (hnr : ∀ x ∈ t, isRemEv x = false) (he : isRemEv e = true) :
    traceOk (t ++ [e]) := by
  cases t with
  | nil => exact absurd rfl hne
  | cons a r =>
    simp only [traceOk] at ht
    obtain ⟨ha, hm⟩ := ht
    exact ⟨ha, midOk_append_rem hm
      (fun x hx => hnr x (List.mem_cons_of_mem a hx)) he⟩

theorem traceOk_single_add {e : js_event} (he : isAddEv e = true) : traceOk [e] :=
  ⟨he, trivial⟩

theorem ctxInv_handleHotplug (c : js_ctx) (n : HotplugNotice) (h : CtxInv c) :
    CtxInv (handleHotplug c n) := by
  obtain ⟨hfresh, hreg, hne, hnr, hok⟩ := h
  cases n with
  | add desc =>
    cases hcl : js_classify desc with
    | none =>
      simp only [handleHotplug, hcl]
      exact ⟨hfresh, hreg, hne, hnr, hok⟩
    | some m =>
      have hH : (handleHotplug c (.add desc)).history
          = c.history ++ [⟨c.nextId, .deviceAdded⟩] := by
        simp [handleHotplug, hcl, enqueue]
      have hR : (handleHotplug c (.add desc)).registry
          = c.registry ++ [⟨c.nextId, desc.node, m, freshTState m⟩] := by
        simp [handleHotplug, hcl, enqueue]
      have hN : (handleHotplug c (.add desc)).nextId = c.nextId + 1 := by
        simp [handleHotplug, hcl, enqueue]
      have haev : ∀ e ∈ [(⟨c.nextId, .deviceAdded⟩ : js_event)],
          e.device = c.nextId := by
        intro e he
        rw [List.mem_singleton.1 he]
      have hold : ∀ e ∈ c.history, e.device ≠ c.nextId :=
        fun e he => Nat.ne_of_lt (hfresh e he)
      have htrNew : deviceTrace (c.history ++ [⟨c.nextId, .deviceAdded⟩]) c.nextId
          = [⟨c.nextId, .deviceAdded⟩] := by
        rw [deviceTrace_append_same _ haev, deviceTrace_nil hold, List.nil_append]
      have htrOld : ∀ d, d ≠ c.nextId →
          deviceTrace (c.history ++ [⟨c.nextId, .deviceAdded⟩]) d
            = deviceTrace c.history d := by
        intro d hd
        refine deviceTrace_append_other _ ?_
        intro e he
        rw [List.mem_singleton.1 he]
        exact fun hcon => hd hcon.symm
      refine ⟨?_, ?_, ?_, ?_, ?_⟩ <;> simp only [hH, hN, hR]
      · intro e he
        rcases List.mem_append.1 he with h1 | h1
        · exact Nat.lt_succ_of_lt (hfresh e h1)
        · rw [List.mem_singleton.1 h1]
          exact Nat.lt_succ_self _
      · intro le hle
        rcases List.mem_append.1 hle with h1 | h1
        · exact Nat.lt_succ_of_lt (hreg le h1)
        · rw [List.mem_singleton.1 h1]
          exact Nat.lt_succ_self _
      · intro le hle
        rcases List.mem_append.1 hle with h1 | h1
        · rw [htrOld le.id (Nat.ne_of_lt (hreg le h1))]
          exact hne le h1
        · rw [List.mem_singleton.1 h1]
          show deviceTrace (c.history ++ [(⟨c.nextId, .deviceAdded⟩ : js_event)]) c.nextId ≠ []
          rw [htrNew]
          simp
      · intro le hle e he
        rcases List.mem_append.1 hle with h1 | h1
        · rw [htrOld le.id (Nat.ne_of_lt (hreg le h1))] at he
          exact hnr le h1 e he
        · rw [List.mem_singleton.1 h1] at he
          rw [htrNew] at he
          rw [List.mem_singleton.1 he]
          rfl
      · intro d
        by_cases hd : d = c.nextId
        · subst hd
          rw [htrNew]
          exact traceOk_single_add rfl
        · rw [htrOld d hd]
          exact hok d
  | remove node =>
    cases hfind : c.registry.find? (fun le => le.node == node) with
    | none =>
      simp only [handleHotplug, hfind]
      exact ⟨hfresh, hreg, hne, hnr, hok⟩
    | some le =>
      have hH : (handleHotplug c (.remove node)).history
          = c.history ++ [⟨le.id, .deviceRemoved⟩] := by
        simp [handleHotplug, hfind, enqueue]
      have hR : (handleHotplug c (.remove node)).registry
          = c.registry.filter (fun x => x.id != le.id) := by
        simp [handleHotplug, hfind, enqueue]
      have hN : (handleHotplug c (.remove node)).nextId = c.nextId := by
        simp [handleHotplug, hfind, enqueue]
      have hmem : le ∈ c.registry := List.mem_of_find?_eq_some hfind
      have hrev : ∀ e ∈ [(⟨le.id, .deviceRemoved⟩ : js_event)],
          e.device = le.id := by
        intro e he
        rw [List.mem_singleton.1 he]
      have htrRem : deviceTrace (c.history ++ [⟨le.id, .deviceRemoved⟩]) le.id
          = deviceTrace c.history le.id ++ [⟨le.id, .deviceRemoved⟩] :=
        deviceTrace_append_same _ hrev
      have htrOld : ∀ d, d ≠ le.id →
          deviceTrace (c.history ++ [⟨le.id, .deviceRemoved⟩]) d
            = deviceTrace c.history d := by
        intro d hd
        refine deviceTrace_append_other _ ?_
        intro e he
        rw [List.mem_singleton.1 he]
        exact fun hcon => hd hcon.symm
      refine ⟨?_, ?_, ?_, ?_, ?_⟩ <;> simp only [hH, hN, hR]
      · intro e he
        rcases List.mem_append.1 he with h1 | h1
        · exact hfresh e h1
        · rw [List.mem_singleton.1 h1]
          exact hreg le hmem
      · intro x hx
        exact hreg x (List.mem_filter.1 hx).1
      · intro x hx
        obtain ⟨hx1, hx2⟩ := List.mem_filter.1 hx
        have hxne : x.id ≠ le.id := by
          simpa using hx2
        rw [htrOld x.id hxne]
        exact hne x hx1
      · intro x hx e he
        obtain ⟨hx1, hx2⟩ := List.mem_filter.1 hx
        have hxne : x.id ≠ le.id := by
          simpa using hx2
        rw [htrOld x.id hxne] at he
        exact hnr x hx1 e he
      · intro d
        by_cases hd : d = le.id
        · subst hd
          rw [htrRem]
          exact traceOk_append_rem (hok le.id) (hne le hmem) (hnr le hmem) rfl
        · rw [htrOld d hd]
          exact hok d

theorem ctxInv_handleReport (c : js_ctx) (r : Nat × RawBatch) (h : CtxInv c) :
    CtxInv (handleReport c r) := by
  obtain ⟨hfresh, hreg, hne, hnr, hok⟩ := h
  cases hfind : c.registry.find? (fun le => le.id == r.1) with
  | none =>
    simp only [handleReport, hfind]
    exact ⟨hfresh, hreg, hne, hnr, hok⟩
  | some le =>
    have hH : (handleReport c r).history
        = c.history ++ (translateBatch le.model le.id le.tstate r.2).2 := by
      simp [handleReport, hfind, enqueueAll]
    have hR : (handleReport c r).registry
        = c.registry.map (fun x => if x.id = le.id then
            { x with tstate := (translateBatch le.model le.id le.tstate r.2).1 }
          else x) := by
      simp [handleReport, hfind, enqueueAll]
    have hN : (handleReport c r).nextId = c.nextId := by
      simp [handleReport, hfind, enqueueAll]
    have hmem : le ∈ c.registry := List.mem_of_find?_eq_some hfind
    have hstates : ∀ e ∈ (translateBatch le.model le.id le.tstate r.2).2,
        e.device = le.id ∧ isStateEv e = true :=
      translateBatch_events_state le.model le.id le.tstate r.2
    have htrSame :
        deviceTrace (c.history ++ (translateBatch le.model le.id le.tstate r.2).2) le.id
          = deviceTrace c.history le.id ++ (translateBatch le.model le.id le.tstate r.2).2 :=
      deviceTrace_append_same _ fun e he => (hstates e he).1
    have htrOld : ∀ d, d ≠ le.id →
        deviceTrace (c.history ++ (translateBatch le.model le.id le.tstate r.2).2) d
          = deviceTrace c.history d := by
      intro d hd
      refine deviceTrace_append_other _ ?_
      intro e he
      rw [(hstates e he).1]
      exact fun hcon => hd hcon.symm
    refine ⟨?_, ?_, ?_, ?_, ?_⟩ <;> simp only [hH, hN, hR]
    · intro e he
      rcases List.mem_append.1 he with h1 | h1
      · exact hfresh e h1
      · rw [(hstates e h1).1]
        exact hreg le hmem
    · intro y hy
      obtain ⟨x, hx, hxy⟩ := List.mem_map.1 hy
      subst hxy
      by_cases hid : x.id = le.id
      · simpa [hid] using hreg x hx
      · simpa [hid] using hreg x hx
    · intro y hy
      obtain ⟨x, hx, hxy⟩ := List.mem_map.1 hy
      subst hxy
      by_cases hid : x.id = le.id
      · have hyid : (if x.id = le.id then
            { x with tstate := (translateBatch le.model le.id le.tstate r.2).1 }
          else x).id = le.id := by
          simp [hid]
        rw [hyid, htrSame]
        intro hcon
        exact hne le hmem (List.append_eq_nil.1 hcon).1
      · have hyid : (if x.id = le.id then
            { x with tstate := (translateBatch le.model le.id le.tstate r.2).1 }
          else x).id = x.id := by
          simp [hid]
        rw [hyid, htrOld x.id hid]
        exact hne x hx
    · intro y hy e he
      obtain ⟨x, hx, hxy⟩ := List.mem_map.1 hy
      subst hxy
      by_cases hid : x.id = le.id
      · have hyid : (if x.id = le.id then
            { x with tstate := (translateBatch le.model le.id le.tstate r.2).1 }
          else x).id = le.id := by
          simp [hid]
        rw [hyid, htrSame] at he
        rcases List.mem_append.1 he with h1 | h1
        · exact hnr le hmem e h1
        · exact not_rem_of_state (hstates e h1).2
      · have hyid : (if x.id = le.id then
            { x with tstate := (translateBatch le.model le.id le.tstate r.2).1 }
          else x).id = x.id := by
          simp [hid]
        rw [hyid, htrOld x.id hid] at he
        exact hnr x hx e he
    · intro d
      by_cases hd : d = le.id
      · subst hd
        rw [htrSame]
        exact traceOk_append_states (hok le.id) (hne le hmem) (hnr le hmem)
          fun e he => (hstates e he).2
      · rw [htrOld d hd]
        exact hok d

theorem ctxInv_foldl {α : Type} (f : js_ctx → α → js_ctx)
    (hf : ∀ c x, CtxInv c → CtxInv (f c x)) :
    ∀ (l : List α) (c : js_ctx), CtxInv c → CtxInv (List.foldl f c l) := by
  intro l
  induction l with
  | nil => exact fun c h => h
  | cons x t ih => exact fun c h => ih _ (hf c x h)

theorem ctxInv_dispatch (c : js_ctx) (h : CtxInv c) : CtxInv (js_ctx_dispatch c) := by
  unfold js_ctx_dispatch
  refine ctxInv_foldl handleReport ctxInv_handleReport _ _
    (ctxInv_foldl handleHotplug ctxInv_handleHotplug _ _ ?_)
  exact ⟨h.fresh, h.regLt, h.liveNe, h.liveNr, h.ok⟩

theorem ctxInv_getEvent (c : js_ctx) (h : CtxInv c) :
    CtxInv (js_ctx_get_event c).2 := by
  cases hq : c.queue with
  | nil =>
    simp only [js_ctx_get_event, hq]
    exact h
  | cons e r =>
    simp only [js_ctx_get_event, hq]
    exact ⟨h.fresh, h.regLt, h.liveNe, h.liveNr, h.ok⟩

theorem ctxInv_step {c c' : js_ctx} (h : Step c c') (hc : CtxInv c) : CtxInv c' := by
  cases h with
  | notice n => exact ⟨hc.fresh, hc.regLt, hc.liveNe, hc.liveNr, hc.ok⟩
  | report r => exact ⟨hc.fresh, hc.regLt, hc.liveNe, hc.liveNr, hc.ok⟩
  | dispatch => exact ctxInv_dispatch c hc
  | getEvent => exact ctxInv_getEvent c hc

theorem ctxInv_init : CtxInv initCtx :=
  ⟨fun e he => absurd he (List.not_mem_nil e),
   fun le hle => absurd hle (List.not_mem_nil le),
   fun le hle => absurd hle (List.not_mem_nil le),
   fun le hle => absurd hle (List.not_mem_nil le),
   fun _ => trivial⟩

theorem ctxInv_reachable {c : js_ctx} (h : Reachable c) : CtxInv c := by
  unfold Reachable at h
  induction h with
  | refl => exact ctxInv_init
  | tail h1 h2 ih => exact ctxInv_step h2 ih

/-- Claim C2: in every reachable event sequence of a context, every
device-local subsequence of the enqueued-event history has the lifecycle
shape — a device-added event first, followed only by state-change/sync
events, optionally terminated by a single device-removed event after which
nothing follows; in particular no state-change event is ever enqueued for a
device that has not been announced or whose removal has been enqueued. -/
theorem device_lifecycle (c : js_ctx) (h : Reachable c) (d : Nat) :
    traceOk (deviceTrace c.history d) :=
  (ctxInv_reachable h).ok d

theorem device_lifecycle_witness :
    traceOk (deviceTrace (js_ctx_dispatch
      { initCtx with pendingHotplug := [HotplugNotice.add exDesc] }).history 0) := by
  refine device_lifecycle _ ?_ 0
  exact Relation.ReflTransGen.tail
    (Relation.ReflTransGen.single (Step.notice initCtx (HotplugNotice.add exDesc)))
    (Step.dispatch _)

theorem axis_change_collapsed_witness :
    (translateBatch exModel 0 (freshTState exModel) exBatch).2.countP (isAxisEvFor 0) ≤ 1
    ∧ ((mergedAxisUpdate exBatch.axisReports 0).x = none →
      (axisNewOf exModel (freshTState exModel) exBatch 0).x
        = (axisLastOf (freshTState exModel) 0).x) :=
  ⟨(axis_change_collapsed exModel 0 (freshTState exModel) exBatch 0 (by decide)).1,
   (axis_change_collapsed exModel 0 (freshTState exModel) exBatch 0 (by decide)).2.2.2.1⟩
